import Mathlib

/-!
Verification development for the `pylutron_caseta` Smartbridge client
(`src/pylutron_caseta/smartbridge.py`).

The Python source is shallowly embedded as executable Lean definitions:

* Python `dict`s (insertion ordered, last write wins, position preserved on
  overwrite) are association lists `List (String × α)` with `assoc` lookup
  and `dictInsert` update.
* JSON values (as produced by `json.dumps` / consumed by `json.loads`) are
  the inductive type `Json`, with a printer `dumpsV` mirroring
  `json.dumps`'s default `", "`/`": "` separators and escaping, and a
  fuel-indexed parser `parseValue` modelling `json.loads`.  Numeric payloads
  in the protocol messages are integers, so JSON numbers are modelled as
  `Int`.  Byte strings on the wire are modelled at the Unicode scalar level
  (`List Char`), i.e. after UTF-8 decoding.
* Fallible Python code (KeyError / IndexError / JSONDecodeError) returns
  `Option`; `none` models a raised exception.
* Methods that perform network writes return the list of request objects
  they send (`_send_command` / `_write_object` calls), in order.  The Python
  `_send_command` has no `return` statement, so it evaluates to `None`;
  facade methods returning `self._send_command(cmd)` therefore return the
  Python value `None`, modelled as `(none : Option Int)` in the result pair.
-/

namespace PylutronCaseta

/-- Association-list lookup, the embedding of Python `dict[key]` /
`dict.get(key)`: first binding for the key wins (keys are unique in any list
built by `dictInsert`). -/
def assoc {α : Type} : List (String × α) → String → Option α
  | [], _ => none
  | (k, v) :: rest, key => if k = key then some v else assoc rest key

/-- The embedding of Python `dict[key] = value`: overwrite in place if the
key exists (keeping its position, as CPython dicts do), else append. -/
def dictInsert {α : Type} (d : List (String × α)) (key : String) (v : α) :
    List (String × α) :=
  if (assoc d key).isSome then
    d.map fun p => if p.1 = key then (key, v) else p
  else d ++ [(key, v)]

/-- A Python dict with values of type `α`. -/
abbrev Dict (α : Type) := List (String × α)

/-- The substring after the last `'/'`, the embedding of the Python idiom
`s[s.rfind('/') + 1:]` used for device ids, zone ids and scene ids.  When
the string has no `'/'`, `rfind` returns `-1` and the idiom yields the whole
string, which this definition also does. -/
def afterLastSlash (s : String) : String :=
  ⟨((s.data.reverse.takeWhile fun c => c ≠ '/')).reverse⟩

/-- JSON values, the embedding of the Python object trees passed to
`json.dumps` and returned by `json.loads`.  Object fields keep insertion
order, like Python dicts.  The protocol only carries integral numbers, so
`num` holds an `Int`. -/
inductive Json where
  | null : Json
  | bool : Bool → Json
  | num : Int → Json
  | str : String → Json
  | arr : List Json → Json
  | obj : List (String × Json) → Json

/-- Field access on a JSON object, the embedding of `obj['key']` on a parsed
response (`none` models both a missing key and indexing a non-dict). -/
def Json.getField : Json → String → Option Json
  | .obj fields, key => assoc fields key
  | _, _ => none

/-- Extract a JSON string, the embedding of using a parsed value where
Python expects `str`. -/
def Json.asStr : Json → Option String
  | .str s => some s
  | _ => none

/-- Extract a JSON integer, the embedding of using a parsed value where the
protocol carries a numeric level. -/
def Json.asInt : Json → Option Int
  | .num n => some n
  | _ => none

/-- A cached device, the embedding of the dict literal built in
`Smartbridge._load_devices` (keys `device_id`, `name`, `type`, `zone`,
`current_state`). -/
structure Device where
  device_id : String
  name : String
  devtype : String
  zone : Option String
  current_state : Int
deriving DecidableEq, Repr

/-- A cached scene, the embedding of the dict literal built in
`Smartbridge._load_scenes` (keys `scene_id`, `name`). -/
structure Scene where
  scene_id : String
  name : String
deriving DecidableEq, Repr

/-- One entry of the hub's `GET /device` bulk response body
(`Body.Devices[i]`): `href`, `Name`, `DeviceType` and the optional
`LocalZones` list of zone hrefs. -/
structure DeviceEntry where
  href : String
  name : String
  deviceType : String
  localZones : Option (List String)
deriving DecidableEq, Repr

/-- One entry of the hub's `GET /virtualbutton` bulk response body
(`Body.VirtualButtons[i]`). -/
structure SceneEntry where
  href : String
  name : String
  isProgrammed : Bool
deriving DecidableEq, Repr

/-- The zone id computed for one device entry in `_load_devices`:
`None` when `'LocalZones' not in device`, otherwise the trailing path
segment of `device['LocalZones'][0]['href']`.  The outer `none` models the
`IndexError` Python raises when `LocalZones` is present but empty. -/
def entryZone (e : DeviceEntry) : Option (Option String) :=
  match e.localZones with
  | none => some none
  | some [] => none
  | some (h :: _) => some (some (afterLastSlash h))

/-- The embedding of `Smartbridge._load_devices`' response-processing loop:
for each entry of the bulk response, insert a fresh device record (with
`current_state = -1`) into `self.devices` under the trailing segment of its
`href`.  Note the loop only ever assigns `self.devices[device_id] = ...`;
the dict is never cleared first. -/
def load_devices (devices : Dict Device) : List DeviceEntry → Option (Dict Device)
  | [] => some devices
  | e :: rest =>
    match entryZone e with
    | none => none
    | some z =>
      load_devices
        (dictInsert devices (afterLastSlash e.href)
          { device_id := afterLastSlash e.href
            name := e.name
            devtype := e.deviceType
            zone := z
            current_state := -1 })
        rest

/-- The embedding of `Smartbridge._load_scenes`' response-processing loop:
insert a scene for each programmed virtual button; unprogrammed entries are
skipped.  As with devices, `self.scenes` is never cleared first. -/
def load_scenes (scenes : Dict Scene) : List SceneEntry → Dict Scene
  | [] => scenes
  | e :: rest =>
    load_scenes
      (if e.isProgrammed then
        dictInsert scenes (afterLastSlash e.href)
          { scene_id := afterLastSlash e.href, name := e.name }
      else scenes)
      rest

/-- The embedding of `Smartbridge._get_zone_id`: `self.devices[device_id]`
(KeyError modelled as the outer `none`) followed by the `'zone'` key, which
every record built by `_load_devices` has. -/
def get_zone_id (devices : Dict Device) (device_id : String) :
    Option (Option String) :=
  (assoc devices device_id).map Device.zone

/-- The `ReadRequest` object built for a url, as in `get_value`,
`_load_devices`, `_load_scenes` and `_login`. -/
def readRequestJson (url : String) : Json :=
  Json.obj [("CommuniqueType", Json.str "ReadRequest"),
            ("Header", Json.obj [("Url", Json.str url)])]

/-- The `CreateRequest` object built by `Smartbridge.set_value` for a zone
and a level value. -/
def goToLevelReq (zone : String) (value : Int) : Json :=
  Json.obj [("CommuniqueType", Json.str "CreateRequest"),
            ("Header", Json.obj
              [("Url", Json.str ("/zone/" ++ zone ++ "/commandprocessor"))]),
            ("Body", Json.obj
              [("Command", Json.obj
                [("CommandType", Json.str "GoToLevel"),
                 ("Parameter", Json.arr
                   [Json.obj [("Type", Json.str "Level"),
                              ("Value", Json.num value)]])])])]

/-- The `CreateRequest` object built by `Smartbridge.activate_scene`. -/
def pressAndReleaseReq (scene_id : String) : Json :=
  Json.obj [("CommuniqueType", Json.str "CreateRequest"),
            ("Header", Json.obj
              [("Url",
                Json.str ("/virtualbutton/" ++ scene_id ++ "/commandprocessor"))]),
            ("Body", Json.obj
              [("Command", Json.obj
                [("CommandType", Json.str "PressAndRelease")])])]

/-- The embedding of `Smartbridge.get_value`.  Result: `none` models the
KeyError on an unknown device id; otherwise the pair is (requests written to
the connection, Python return value).  The source guards with the truthiness
test `if zone_id:`, so both a `None` zone and an empty-string zone send
nothing; when a request is sent the method returns `self._send_command(cmd)`
and `_send_command` has no `return`, so the Python return value is `None`
in every path. -/
def get_value (devices : Dict Device) (device_id : String) :
    Option (List Json × Option Int) :=
  (get_zone_id devices device_id).map fun z =>
    match z with
    | some zid =>
      if zid = "" then ([], none)
      else ([readRequestJson ("/zone/" ++ zid ++ "/status")], none)
    | none => ([], none)

/-- The embedding of `Smartbridge.set_value`, with the same result
convention as `get_value`. -/
def set_value (devices : Dict Device) (device_id : String) (value : Int) :
    Option (List Json × Option Int) :=
  (get_zone_id devices device_id).map fun z =>
    match z with
    | some zid =>
      if zid = "" then ([], none)
      else ([goToLevelReq zid value], none)
    | none => ([], none)

/-- The embedding of `Smartbridge.turn_on`: literally
`self.set_value(device_id, 100)`. -/
def turn_on (devices : Dict Device) (device_id : String) :
    Option (List Json × Option Int) :=
  set_value devices device_id 100

/-- The embedding of `Smartbridge.turn_off`: literally
`self.set_value(device_id, 0)`. -/
def turn_off (devices : Dict Device) (device_id : String) :
    Option (List Json × Option Int) :=
  set_value devices device_id 0

/-- The embedding of `Smartbridge.activate_scene`: a membership test on
`self.scenes`, then either one `CreateRequest` write or nothing.  The
method cannot raise and touches no state, so the result is total. -/
def activate_scene (scenes : Dict Scene) (scene_id : String) :
    List Json × Option Int :=
  if (assoc scenes scene_id).isSome then ([pressAndReleaseReq scene_id], none)
  else ([], none)

/-- The embedding of `Smartbridge.is_on`:
`self.devices[device_id]['current_state'] > 0` (KeyError as `none`). -/
def is_on (devices : Dict Device) (device_id : String) : Option Bool :=
  (assoc devices device_id).map fun d => decide (0 < d.current_state)

/-- The `for _device_id in self.devices` loop of
`Smartbridge._handle_response`: walk the device dict in order; for each
device whose (non-null) `zone` equals the pushed zone id, set
`current_state` to the pushed level and, if the device id has a subscriber,
record one callback invocation.  Returns the updated dict together with the
list of device ids whose callback fired, in invocation order. -/
def updateZone (zid : String) (level : Int) (subs : List String) :
    Dict Device → Dict Device × List String
  | [] => ([], [])
  | (did, d) :: rest =>
    let tail := updateZone zid level subs rest
    match d.zone with
    | some z =>
      if z = zid then
        ((did, { d with current_state := level }) :: tail.1,
         (if did ∈ subs then [did] else []) ++ tail.2)
      else ((did, d) :: tail.1, tail.2)
    | none => ((did, d) :: tail.1, tail.2)

/-- The embedding of `Smartbridge._handle_response`.  `subs` is the key set
of `self._subscribers`.  A missing `CommuniqueType` key, a malformed
`ReadResponse` body, or a non-string href / non-numeric level (where the
source would raise) is `none`; a message whose `CommuniqueType` is not the
string `'ReadResponse'` is ignored, returning the unchanged dict and no
callback invocations. -/
def handle_response (devices : Dict Device) (subs : List String)
    (resp : Json) : Option (Dict Device × List String) :=
  match Json.getField resp "CommuniqueType" with
  | none => none
  | some ct =>
    if Json.asStr ct = some "ReadResponse" then
      match (Json.getField resp "Body").bind fun b =>
          Json.getField b "ZoneStatus" with
      | none => none
      | some zs =>
        match ((Json.getField zs "Zone").bind fun z =>
            Json.getField z "href").bind Json.asStr with
        | none => none
        | some href =>
          match (Json.getField zs "Level").bind Json.asInt with
          | none => none
          | some level =>
            some (updateZone (afterLastSlash href) level subs devices)
    else some (devices, [])

/-- A well-formed zone-status push, the response shape of §6 of the spec:
`{"CommuniqueType": "ReadResponse", "Body": {"ZoneStatus": {"Zone":
{"href": ...}, "Level": ...}}}`. -/
def zoneStatusMessage (href : String) (level : Int) : Json :=
  Json.obj [("CommuniqueType", Json.str "ReadResponse"),
            ("Body", Json.obj
              [("ZoneStatus", Json.obj
                [("Zone", Json.obj [("href", Json.str href)]),
                 ("Level", Json.num level)])])]

/-- The module constant `LEAP_PORT = 8081`. -/
def LEAP_PORT : Nat := 8081

/-- The connection parameters stored by `Smartbridge.__init__`:
`self._hostname = hostname`, `self._port = port`. -/
structure Config where
  hostname : String
  port : Nat
deriving DecidableEq, Repr

/-- Observable state of the `StreamReader` that `_login` inspects:
whether `reader.exception()` is non-`None` and whether `reader.at_eof()`. -/
structure ConnState where
  hasException : Bool
  atEof : Bool
deriving DecidableEq, Repr

/-- The mutable session state of a `Smartbridge`: the two caches, the
`logged_in` flag and the current connection (if any). -/
structure BridgeState where
  devices : Dict Device
  scenes : Dict Scene
  logged_in : Bool
  conn : Option ConnState
deriving DecidableEq, Repr

/-- The bulk-load responses the hub sends during one login sequence. -/
structure HubResponses where
  deviceEntries : List DeviceEntry
  sceneEntries : List SceneEntry
deriving DecidableEq, Repr

/-- One observable network I/O operation performed by `_login`. -/
inductive Action where
  | connect (hostname : String) (port : Nat)
  | write (msg : Json)
  | read

/-- The fire-and-forget status reads issued at the end of `_login`:
`for device in self.devices.values(): if 'zone' in device and
device['zone'] is not None: write ReadRequest /zone/{zone}/status`. -/
def statusRequests (devices : Dict Device) : List Json :=
  devices.filterMap fun p =>
    match p.2.zone with
    | some z => some (readRequestJson ("/zone/" ++ z ++ "/status"))
    | none => none

/-- The reconnect path of `Smartbridge._login` (everything after the
liveness fast-path): set `logged_in = False`, open a connection to
`(self._hostname, LEAP_PORT)` — note the source passes the constant
`LEAP_PORT`, not `self._port` — bulk-load devices and scenes, issue the
status reads, and set `logged_in = True`.  `none` models an exception
escaping the login attempt. -/
def loginFresh (cfg : Config) (st : BridgeState) (hub : HubResponses) :
    Option (BridgeState × List Action) :=
  match load_devices st.devices hub.deviceEntries with
  | none => none
  | some devices' =>
    let scenes' := load_scenes st.scenes hub.sceneEntries
    some ({ devices := devices', scenes := scenes',
            logged_in := true, conn := some ⟨false, false⟩ },
      [Action.connect cfg.hostname LEAP_PORT,
       Action.write (readRequestJson "/device"), Action.read,
       Action.write (readRequestJson "/virtualbutton"), Action.read]
      ++ (statusRequests devices').map Action.write)

/-- The embedding of `Smartbridge._login`: if a reader exists with no
observed exception and not at end-of-file, return immediately with no I/O
and no state change; otherwise discard the stale connection and run the
reconnect path. -/
def login (cfg : Config) (st : BridgeState) (hub : HubResponses) :
    Option (BridgeState × List Action) :=
  match st.conn with
  | some c =>
    if c.hasException = false ∧ c.atEof = false then some (st, [])
    else loginFresh cfg { st with logged_in := false, conn := none } hub
  | none => loginFresh cfg { st with logged_in := false, conn := none } hub

/-! The wire codec: `json.dumps(obj).encode('UTF-8') + b'\r\n'` on the way
out (`_write_object`), `readline()` + `json.loads` on the way in
(`_read_object`).  The printer follows `json.dumps`'s defaults: separators
`", "` and `": "`, `ensure_ascii=True` escaping (named short escapes, and
`\uXXXX` — with surrogate pairs above the BMP — for other control and
non-ASCII characters).  The parser is a fuel-indexed JSON reader; fuel
bounds nesting depth and any fuel at least the input length suffices. -/

/-- JSON whitespace, as skipped by `json.loads` between tokens. -/
def isWsC (c : Char) : Bool :=
  c = ' ' ∨ c = '\t' ∨ c = '\n' ∨ c = '\r'

/-- Drop leading JSON whitespace. -/
def skipWs : List Char → List Char
  | [] => []
  | c :: rest => if isWsC c then skipWs rest else c :: rest

/-- ASCII decimal digit test (scalar-value based). -/
def isDigitC (c : Char) : Bool := 48 ≤ c.toNat ∧ c.toNat ≤ 57

/-- The ASCII digit for `n < 10`. -/
def digitChar (n : Nat) : Char := Char.ofNat (48 + n)

/-- Decimal digits of a natural number, most significant first, as printed
by Python's `str`/`json.dumps`. -/
def natDigits (n : Nat) : List Char :=
  if n < 10 then [digitChar n]
  else natDigits (n / 10) ++ [digitChar (n % 10)]
  termination_by n
  decreasing_by exact Nat.div_lt_self (by omega) (by omega)

/-- An integer as printed by `json.dumps` (`-` sign plus digits). -/
def dumpInt (v : Int) : List Char :=
  if v < 0 then '-' :: natDigits (-v).toNat else natDigits v.toNat

/-- Lowercase hex digit for `n < 16`, as used in Python's `\uXXXX`
escapes. -/
def hexDigitChar (n : Nat) : Char :=
  if n < 10 then Char.ofNat (48 + n) else Char.ofNat (87 + n)

/-- A `\uXXXX` escape for a code unit `n < 0x10000`. -/
def uEsc (n : Nat) : List Char :=
  ['\\', 'u', hexDigitChar (n / 4096 % 16), hexDigitChar (n / 256 % 16),
   hexDigitChar (n / 16 % 16), hexDigitChar (n % 16)]

/-- How `json.dumps` (with its default `ensure_ascii=True`) renders one
character inside a string literal: named short escapes for `"`, `\` and
the common controls, `\uXXXX` for other controls and all non-ASCII
characters — as a surrogate pair when the scalar value is above the
BMP — and the character itself otherwise. -/
def escapeChar (c : Char) : List Char :=
  if c = '"' then ['\\', '"']
  else if c = '\\' then ['\\', '\\']
  else if c = '\n' then ['\\', 'n']
  else if c = '\r' then ['\\', 'r']
  else if c = '\t' then ['\\', 't']
  else if c.toNat = 8 then ['\\', 'b']
  else if c.toNat = 12 then ['\\', 'f']
  else if c.toNat < 32 then uEsc c.toNat
  else if c.toNat < 127 then [c]
  else if c.toNat < 65536 then uEsc c.toNat
  else uEsc (55296 + (c.toNat - 65536) / 1024) ++
       uEsc (56320 + (c.toNat - 65536) % 1024)

/-- The body of a JSON string literal (without the delimiting quotes). -/
def strBody : List Char → List Char
  | [] => []
  | c :: cs => escapeChar c ++ strBody cs

mutual

/-- `json.dumps` with its default separators (`", "`, `": "`):
the wire text of a JSON value, as a character list. -/
def dumpsV : Json → List Char
  | Json.null => ['n', 'u', 'l', 'l']
  | Json.bool true => ['t', 'r', 'u', 'e']
  | Json.bool false => ['f', 'a', 'l', 's', 'e']
  | Json.num v => dumpInt v
  | Json.str s => '"' :: strBody s.data ++ ['"']
  | Json.arr xs => '[' :: dumpsElems xs ++ [']']
  | Json.obj fs => '{' :: dumpsMembers fs ++ ['}']

/-- Array elements joined by `", "`. -/
def dumpsElems : List Json → List Char
  | [] => []
  | [x] => dumpsV x
  | x :: y :: rest => dumpsV x ++ ',' :: ' ' :: dumpsElems (y :: rest)

/-- Object members (`"key": value`) joined by `", "`. -/
def dumpsMembers : List (String × Json) → List Char
  | [] => []
  | [(k, v)] => '"' :: strBody k.data ++ '"' :: ':' :: ' ' :: dumpsV v
  | (k, v) :: m :: rest =>
    ('"' :: strBody k.data ++ '"' :: ':' :: ' ' :: dumpsV v) ++
      ',' :: ' ' :: dumpsMembers (m :: rest)

end

/-- Value of one hex digit, accepting both cases as `json.loads` does. -/
def hexVal (c : Char) : Option Nat :=
  if 48 ≤ c.toNat ∧ c.toNat ≤ 57 then some (c.toNat - 48)
  else if 97 ≤ c.toNat ∧ c.toNat ≤ 102 then some (c.toNat - 87)
  else if 65 ≤ c.toNat ∧ c.toNat ≤ 70 then some (c.toNat - 55)
  else none

/-- Four hex digits as a code unit. -/
def hex4 (a b c d : Char) : Option Nat :=
  match hexVal a, hexVal b, hexVal c, hexVal d with
  | some x, some y, some z, some w => some (4096 * x + 256 * y + 16 * z + w)
  | _, _, _, _ => none

/-- The character denoted by a single-character escape. -/
def unescapeChar (c : Char) : Option Char :=
  if c = '"' then some '"'
  else if c = '\\' then some '\\'
  else if c = '/' then some '/'
  else if c = 'b' then some (Char.ofNat 8)
  else if c = 'f' then some (Char.ofNat 12)
  else if c = 'n' then some '\n'
  else if c = 'r' then some '\r'
  else if c = 't' then some '\t'
  else none

mutual

/-- Parse the body of a JSON string literal up to (and consuming) the
closing quote, returning the decoded characters and the remaining input.
Surrogate pairs in `\uXXXX` escapes are combined; an unpaired surrogate,
a raw control character, an unknown escape or a missing closing quote
fails. -/
def parseStringBody : List Char → Option (List Char × List Char)
  | [] => none
  | c :: rest =>
    if c = '"' then some ([], rest)
    else if c = '\\' then parseEscape rest
    else if c.toNat < 32 then none
    else (parseStringBody rest).map fun p => (c :: p.1, p.2)
  termination_by l => l.length
  decreasing_by all_goals simp

/-- Parse what follows a backslash inside a string literal. -/
def parseEscape : List Char → Option (List Char × List Char)
  | [] => none
  | e :: rest =>
    if e = 'u' then parseU rest
    else
      match unescapeChar e with
      | none => none
      | some u => (parseStringBody rest).map fun p => (u :: p.1, p.2)
  termination_by l => l.length
  decreasing_by all_goals simp

/-- Parse the four hex digits of a `\uXXXX` escape (the `\u` is already
consumed) and continue; a high surrogate must be followed by a low one. -/
def parseU : List Char → Option (List Char × List Char)
  | a :: b :: c2 :: d :: rest =>
    match hex4 a b c2 d with
    | none => none
    | some n =>
      if 55296 ≤ n ∧ n < 56320 then parseLowSurrogate n rest
      else if 56320 ≤ n ∧ n < 57344 then none
      else (parseStringBody rest).map fun p => (Char.ofNat n :: p.1, p.2)
  | _ => none
  termination_by l => l.length
  decreasing_by all_goals (simp; omega)

/-- After a high surrogate `n`, parse the mandatory low-surrogate escape
and combine the pair into one scalar value. -/
def parseLowSurrogate (n : Nat) : List Char → Option (List Char × List Char)
  | '\\' :: 'u' :: e :: f2 :: g :: h2 :: rest =>
    match hex4 e f2 g h2 with
    | none => none
    | some m =>
      if 56320 ≤ m ∧ m < 57344 then
        (parseStringBody rest).map fun p =>
          (Char.ofNat (65536 + 1024 * (n - 55296) + (m - 56320)) :: p.1, p.2)
      else none
  | _ => none
  termination_by l => l.length
  decreasing_by all_goals (simp; omega)

end

/-- Consume a maximal run of decimal digits, accumulating their value. -/
def parseDigitsAux : List Char → Nat → Nat × List Char
  | [], acc => (acc, [])
  | c :: rest, acc =>
    if isDigitC c then parseDigitsAux rest (10 * acc + (c.toNat - 48))
    else (acc, c :: rest)

mutual

/-- Parse one JSON value (after optional leading whitespace).  The fuel
argument bounds recursion depth; parsing fails when it runs out, and any
fuel at least the input length is sufficient. -/
def parseValue : Nat → List Char → Option (Json × List Char)
  | 0, _ => none
  | fuel + 1, input =>
    match skipWs input with
    | [] => none
    | c :: r =>
      if c = '{' then
        match skipWs r with
        | [] => none
        | c2 :: r2 =>
          if c2 = '}' then some (Json.obj [], r2)
          else
            (parseMembers fuel (c2 :: r2)).map fun p => (Json.obj p.1, p.2)
      else if c = '[' then
        match skipWs r with
        | [] => none
        | c2 :: r2 =>
          if c2 = ']' then some (Json.arr [], r2)
          else
            (parseElems fuel (c2 :: r2)).map fun p => (Json.arr p.1, p.2)
      else if c = '"' then
        (parseStringBody r).map fun p => (Json.str ⟨p.1⟩, p.2)
      else if c = 'n' then
        match r with
        | 'u' :: 'l' :: 'l' :: rest => some (Json.null, rest)
        | _ => none
      else if c = 't' then
        match r with
        | 'r' :: 'u' :: 'e' :: rest => some (Json.bool true, rest)
        | _ => none
      else if c = 'f' then
        match r with
        | 'a' :: 'l' :: 's' :: 'e' :: rest => some (Json.bool false, rest)
        | _ => none
      else if c = '-' then
        match r with
        | [] => none
        | c2 :: _ =>
          if isDigitC c2 then
            match parseDigitsAux r 0 with
            | (n, rest) => some (Json.num (-(n : Int)), rest)
          else none
      else if isDigitC c then
        match parseDigitsAux (c :: r) 0 with
        | (n, rest) => some (Json.num (n : Int), rest)
      else none

/-- Parse a non-empty comma-separated list of values up to (and consuming)
the closing `]`. -/
def parseElems : Nat → List Char → Option (List Json × List Char)
  | 0, _ => none
  | fuel + 1, input =>
    match parseValue fuel input with
    | none => none
    | some (v, r) =>
      match skipWs r with
      | [] => none
      | c :: r2 =>
        if c = ',' then
          (parseElems fuel r2).map fun p => (v :: p.1, p.2)
        else if c = ']' then some ([v], r2)
        else none

/-- Parse a non-empty comma-separated list of `"key": value` members up to
(and consuming) the closing `}`. -/
def parseMembers : Nat → List Char → Option (List (String × Json) × List Char)
  | 0, _ => none
  | fuel + 1, input =>
    match input with
    | [] => none
    | c :: r =>
      if c = '"' then
        match parseStringBody r with
        | none => none
        | some (k, r2) =>
          match skipWs r2 with
          | [] => none
          | c2 :: r3 =>
            if c2 = ':' then
              match parseValue fuel r3 with
              | none => none
              | some (v, r4) =>
                match skipWs r4 with
                | [] => none
                | c3 :: r5 =>
                  if c3 = ',' then
                    (parseMembers fuel (skipWs r5)).map fun p =>
                      ((⟨k⟩, v) :: p.1, p.2)
                  else if c3 = '}' then some ([(⟨k⟩, v)], r5)
                  else none
            else none
      else none

end

/-- A list that does not start with a decimal digit: the condition under
which a number parse that stopped here is maximal. -/
def noDigitHead : List Char → Bool
  | [] => true
  | c :: _ => !isDigitC c

/-- Specification predicate: at fuel `f`, the parser reads back the printed
form of `v` exactly, leaving any non-digit-headed remainder. -/
def ParsesV (f : Nat) (v : Json) : Prop :=
  ∀ rest, noDigitHead rest = true →
    parseValue f (dumpsV v ++ rest) = some (v, rest)

/-- Specification predicate: at fuel `f`, the member parser reads back the
printed members followed by the closing brace. -/
def ParsesM (f : Nat) (ms : List (String × Json)) : Prop :=
  ∀ rest, parseMembers f (dumpsMembers ms ++ '}' :: rest) = some (ms, rest)

/-- The embedding of `json.loads` applied to one received line
(`_read_object`): parse a single JSON value and require the remainder of
the line to be whitespace (as `json.loads` does).  The fuel
`input.length + 15` always dominates the nesting depth. -/
def decodeLine (input : List Char) : Option Json :=
  match parseValue (input.length + 15) input with
  | some (v, rest) => if skipWs rest = [] then some v else none
  | none => none

/-- The body of a protocol command request, as built by `set_value`
(`GoToLevel` with a level parameter) or `activate_scene`
(`PressAndRelease`). -/
inductive CommandBody where
  | goToLevel : Int → CommandBody
  | pressAndRelease : CommandBody
deriving DecidableEq, Repr

/-- A structured request message: `CommuniqueType`, `Header.Url`, optional
`Body` — the shape every request dict built in `smartbridge.py` has. -/
structure Request where
  communiqueType : String
  url : String
  body : Option CommandBody
deriving DecidableEq, Repr

/-- The JSON object tree of a request, exactly as the source builds its
request dicts (key order `CommuniqueType`, `Header`, then `Body` when
present). -/
def Request.toJson (r : Request) : Json :=
  Json.obj
    ([("CommuniqueType", Json.str r.communiqueType),
      ("Header", Json.obj [("Url", Json.str r.url)])] ++
     (match r.body with
      | none => []
      | some (CommandBody.goToLevel v) =>
        [("Body", Json.obj
          [("Command", Json.obj
            [("CommandType", Json.str "GoToLevel"),
             ("Parameter", Json.arr
               [Json.obj [("Type", Json.str "Level"),
                          ("Value", Json.num v)]])])])]
      | some CommandBody.pressAndRelease =>
        [("Body", Json.obj
          [("Command", Json.obj
            [("CommandType", Json.str "PressAndRelease")])])]))

/-- Read a command body back out of a parsed `Body` object. -/
def commandOfJson (j : Json) : Option CommandBody :=
  match Json.getField j "Command" with
  | none => none
  | some cmd =>
    match Json.getField cmd "CommandType" with
    | some (Json.str s) =>
      if s = "GoToLevel" then
        match Json.getField cmd "Parameter" with
        | some (Json.arr [p]) =>
          match Json.getField p "Type", Json.getField p "Value" with
          | some (Json.str t), some (Json.num v) =>
            if t = "Level" then some (CommandBody.goToLevel v) else none
          | _, _ => none
        | _ => none
      else if s = "PressAndRelease" then some CommandBody.pressAndRelease
      else none
    | _ => none

/-- Read the structured content (`CommuniqueType`, `Header.Url`, `Body`)
back out of a parsed request object. -/
def Request.ofJson (j : Json) : Option Request :=
  match Json.getField j "CommuniqueType" with
  | some (Json.str ct) =>
    match (Json.getField j "Header").bind fun h => Json.getField h "Url" with
    | some (Json.str url) =>
      match Json.getField j "Body" with
      | none => some { communiqueType := ct, url := url, body := none }
      | some b =>
        (commandOfJson b).map fun cb =>
          { communiqueType := ct, url := url, body := some cb }
    | _ => none
  | _ => none

/-- The embedding of `_write_object`: `json.dumps(obj)` followed by the
CRLF terminator. -/
def encodeRequest (r : Request) : List Char :=
  dumpsV r.toJson ++ ['\r', '\n']

/-! Concrete data used by the counterexamples and witnesses. -/

/-- A device sitting in the cache before a reconnect; its id `9` does not
appear in the reconnect's bulk response. -/
def oldDevice9 : Device :=
  { device_id := "9", name := "Old lamp", devtype := "WallDimmer",
    zone := some "2", current_state := 50 }

/-- The single entry of a bulk device response: href `/device/5`, one local
zone `/zone/3`. -/
def deviceEntry5 : DeviceEntry :=
  { href := "/device/5", name := "Lamp", deviceType := "WallDimmer",
    localZones := some ["/zone/3"] }

/-- The cache record `_load_devices` builds from `deviceEntry5`. -/
def freshDevice5 : Device :=
  { device_id := "5", name := "Lamp", devtype := "WallDimmer",
    zone := some "3", current_state := -1 }

/-- A cached device with no zone (e.g. a Pico remote). -/
def noZoneDevice7 : Device :=
  { device_id := "7", name := "Remote", devtype := "Pico3ButtonRaiseLower",
    zone := none, current_state := -1 }

/-- A cached dimmer with zone `3` whose level 42 has been reported. -/
def dimmer5 : Device :=
  { device_id := "5", name := "Lamp", devtype := "WallDimmer",
    zone := some "3", current_state := 42 }

/-- A configuration whose caller-supplied port is not the LEAP default. -/
def cfg9999 : Config := { hostname := "bridge", port := 9999 }

/-- A bridge state with no connection and empty caches. -/
def emptyState : BridgeState :=
  { devices := [], scenes := [], logged_in := false, conn := none }

/-- A hub that answers both bulk loads with empty sets. -/
def emptyHub : HubResponses := { deviceEntries := [], sceneEntries := [] }

/-- A logged-in state holding a live connection (no exception, not EOF). -/
def aliveState : BridgeState :=
  { devices := [("5", dimmer5)], scenes := [], logged_in := true,
    conn := some { hasException := false, atEof := false } }

/-! Helper lemmas about `assoc` and `dictInsert`. -/

@[simp]
theorem assoc_nil {α : Type} (key : String) :
    assoc ([] : List (String × α)) key = none := rfl

@[simp]
theorem assoc_cons {α : Type} (k : String) (v : α)
    (l : List (String × α)) (key : String) :
    assoc ((k, v) :: l) key = if k = key then some v else assoc l key := rfl

theorem assoc_append_some {α : Type} {d : List (String × α)} {key : String}
    {w : α} (h : assoc d key = some w) (l : List (String × α)) :
    assoc (d ++ l) key = some w := by
  induction d with
  | nil => simp at h
  | cons p rest ih =>
    obtain ⟨pk, pv⟩ := p
    by_cases hpk : pk = key
    · simp [hpk] at h ⊢
      exact h
    · simp [hpk] at h ⊢
      exact ih h

theorem assoc_append_none {α : Type} {d : List (String × α)} {key : String}
    (h : assoc d key = none) (l : List (String × α)) :
    assoc (d ++ l) key = assoc l key := by
  induction d with
  | nil => simp
  | cons p rest ih =>
    obtain ⟨pk, pv⟩ := p
    by_cases hpk : pk = key
    · simp [hpk] at h
    · simp [hpk] at h ⊢
      exact ih h

theorem assoc_map_overwrite {α : Type} (key : String) (v : α) :
    ∀ d : List (String × α), (assoc d key).isSome = true →
      assoc (d.map fun p => if p.1 = key then (key, v) else p) key =
        some v := by
  intro d
  induction d with
  | nil => intro h; simp at h
  | cons p rest ih =>
    intro h
    obtain ⟨pk, pv⟩ := p
    by_cases hpk : pk = key
    · simp [hpk]
    · simp [hpk] at h ⊢
      exact ih h

theorem assoc_map_overwrite_ne {α : Type} {k key : String} (v : α)
    (h : k ≠ key) :
    ∀ d : List (String × α),
      assoc (d.map fun p => if p.1 = k then (k, v) else p) key =
        assoc d key := by
  intro d
  induction d with
  | nil => simp
  | cons p rest ih =>
    obtain ⟨pk, pv⟩ := p
    by_cases hpk : pk = k
    · subst hpk
      simp [h, ih]
    · simp [hpk, ih]

theorem assoc_dictInsert_self {α : Type} (d : List (String × α))
    (key : String) (v : α) : assoc (dictInsert d key v) key = some v := by
  unfold dictInsert
  by_cases h : (assoc d key).isSome
  · rw [if_pos h]
    exact assoc_map_overwrite key v d h
  · rw [if_neg h]
    have hnone : assoc d key = none := by
      cases hd : assoc d key with
      | none => rfl
      | some w => rw [hd] at h; simp at h
    rw [assoc_append_none hnone]
    simp

theorem assoc_dictInsert_ne {α : Type} (d : List (String × α))
    {k key : String} (v : α) (h : k ≠ key) :
    assoc (dictInsert d k v) key = assoc d key := by
  unfold dictInsert
  by_cases hs : (assoc d k).isSome
  · rw [if_pos hs]
    exact assoc_map_overwrite_ne v h d
  · rw [if_neg hs]
    cases hd : assoc d key with
    | none =>
      rw [assoc_append_none hd]
      simp [h]
    | some w => exact assoc_append_some hd _

/-! Helper lemmas about the bulk loaders. -/

theorem load_devices_preserves :
    ∀ (entries : List DeviceEntry) (devices result : Dict Device)
      (id : String),
      load_devices devices entries = some result →
      (∀ e ∈ entries, afterLastSlash e.href ≠ id) →
      assoc result id = assoc devices id := by
  intro entries
  induction entries with
  | nil =>
    intro devices result id h _
    simp [load_devices] at h
    subst h
    rfl
  | cons e rest ih =>
    intro devices result id h hne
    unfold load_devices at h
    cases hz : entryZone e with
    | none => rw [hz] at h; exact absurd h (by simp)
    | some z =>
      rw [hz] at h
      have step := ih _ _ id h fun e' he' => hne e' (List.mem_cons_of_mem _ he')
      rw [step, assoc_dictInsert_ne _ _ (hne e (List.mem_cons_self _ _))]

theorem load_devices_loads_entry :
    ∀ (entries : List DeviceEntry) (devices result : Dict Device),
      load_devices devices entries = some result →
      (entries.map fun e => afterLastSlash e.href).Nodup →
      ∀ e ∈ entries, ∀ z, entryZone e = some z →
        assoc result (afterLastSlash e.href) =
          some { device_id := afterLastSlash e.href, name := e.name,
                 devtype := e.deviceType, zone := z, current_state := -1 } := by
  intro entries
  induction entries with
  | nil => intro _ _ _ _ e he; exact absurd he (by simp)
  | cons e0 rest ih =>
    intro devices result h hnd e he z hz
    unfold load_devices at h
    cases hz0 : entryZone e0 with
    | none => rw [hz0] at h; exact absurd h (by simp)
    | some z0 =>
      rw [hz0] at h
      simp only [List.map_cons, List.nodup_cons] at hnd
      rcases List.mem_cons.mp he with he0 | hrest
      · subst he0
        rw [hz0] at hz
        injection hz with hz
        subst hz
        have hkeep := load_devices_preserves rest _ result
          (afterLastSlash e.href) h
          (fun e' he' heq => hnd.1 (heq ▸ List.mem_map_of_mem _ he'))
        rw [hkeep, assoc_dictInsert_self]
      · exact ih _ _ h hnd.2 e hrest z hz

theorem load_scenes_preserves :
    ∀ (sentries : List SceneEntry) (scenes : Dict Scene) (id : String),
      (∀ e ∈ sentries, e.isProgrammed = true → afterLastSlash e.href ≠ id) →
      assoc (load_scenes scenes sentries) id = assoc scenes id := by
  intro sentries
  induction sentries with
  | nil => intro scenes id _; rfl
  | cons e rest ih =>
    intro scenes id hne
    unfold load_scenes
    rw [ih _ id fun e' he' => hne e' (List.mem_cons_of_mem _ he')]
    by_cases hp : e.isProgrammed
    · rw [if_pos hp,
        assoc_dictInsert_ne _ _ (hne e (List.mem_cons_self _ _) hp)]
    · rw [if_neg hp]

/-! Helper lemmas about `updateZone` and `handle_response`. -/

theorem updateZone_events_mem (zid : String) (level : Int)
    (subs : List String) :
    ∀ devices : Dict Device, ∀ x : String,
      x ∈ (updateZone zid level subs devices).2 →
      x ∈ devices.map Prod.fst := by
  intro devices
  induction devices with
  | nil => intro x hx; simp [updateZone] at hx
  | cons p rest ih =>
    intro x hx
    obtain ⟨did, d⟩ := p
    simp only [updateZone] at hx
    cases hz : d.zone with
    | none =>
      simp only [hz] at hx
      exact List.mem_cons_of_mem _ (ih x hx)
    | some z =>
      simp only [hz] at hx
      by_cases hzz : z = zid
      · simp only [if_pos hzz] at hx
        rcases List.mem_append.mp hx with h1 | h2
        · by_cases hsub : did ∈ subs
          · rw [if_pos hsub] at h1
            have hx1 : x = did := List.mem_singleton.mp h1
            subst hx1
            exact List.mem_cons_self _ _
          · rw [if_neg hsub] at h1
            simp at h1
        · exact List.mem_cons_of_mem _ (ih x h2)
      · simp only [if_neg hzz] at hx
        exact List.mem_cons_of_mem _ (ih x hx)

theorem updateZone_assoc_updated (zid : String) (level : Int)
    (subs : List String) :
    ∀ (devices : Dict Device) (id : String) (d : Device),
      assoc devices id = some d → d.zone = some zid →
      assoc (updateZone zid level subs devices).1 id =
        some { d with current_state := level } := by
  intro devices
  induction devices with
  | nil => intro id d hd; simp at hd
  | cons p rest ih =>
    intro id d hd hz
    obtain ⟨did, dp⟩ := p
    by_cases hk : did = id
    · subst hk
      simp only [assoc_cons, if_pos rfl] at hd
      injection hd with hd
      subst hd
      simp only [updateZone, hz, if_pos rfl]
      simp
    · simp only [assoc_cons, if_neg hk] at hd
      have tailEq := ih id d hd hz
      simp only [updateZone]
      cases hzp : dp.zone with
      | none => simp only [assoc_cons, if_neg hk]; exact tailEq
      | some z =>
        by_cases hzz : z = zid
        · simp only [if_pos hzz, assoc_cons, if_neg hk]
          exact tailEq
        · simp only [if_neg hzz, assoc_cons, if_neg hk]
          exact tailEq

theorem updateZone_count_one (zid : String) (level : Int)
    (subs : List String) :
    ∀ (devices : Dict Device) (id : String) (d : Device),
      (devices.map Prod.fst).Nodup →
      assoc devices id = some d → d.zone = some zid → id ∈ subs →
      (updateZone zid level subs devices).2.count id = 1 := by
  intro devices
  induction devices with
  | nil => intro id d _ hd; simp at hd
  | cons p rest ih =>
    intro id d hnd hd hz hsub
    obtain ⟨did, dp⟩ := p
    simp only [List.map_cons, List.nodup_cons] at hnd
    by_cases hk : did = id
    · subst hk
      simp only [assoc_cons, if_pos rfl] at hd
      injection hd with hd
      subst hd
      simp only [updateZone, hz, eq_self_iff_true, if_true, if_pos hsub]
      have hnot : did ∉ (updateZone zid level subs rest).2 := fun hmem =>
        hnd.1 (updateZone_events_mem zid level subs rest did hmem)
      show List.count did ([did] ++ (updateZone zid level subs rest).2) = 1
      rw [List.count_append]
      rw [List.count_eq_zero.mpr hnot]
      simp
    · simp only [assoc_cons, if_neg hk] at hd
      have tailEq := ih id d hnd.2 hd hz hsub
      simp only [updateZone]
      cases hzp : dp.zone with
      | none => exact tailEq
      | some z =>
        by_cases hzz : z = zid
        · simp only [if_pos hzz]
          show List.count id
            ((if did ∈ subs then [did] else []) ++
              (updateZone zid level subs rest).2) = 1
          rw [List.count_append]
          have hcnt : List.count id (if did ∈ subs then [did] else []) = 0 := by
            by_cases hs : did ∈ subs
            · rw [if_pos hs]
              exact List.count_eq_zero.mpr fun hmem =>
                hk (List.mem_singleton.mp hmem).symm
            · rw [if_neg hs]; rfl
          rw [hcnt, tailEq]
        · simp only [if_neg hzz]
          exact tailEq

theorem updateZone_assoc_none (zid : String) (level : Int)
    (subs : List String) :
    ∀ (devices : Dict Device) (id : String) (d : Device),
      assoc devices id = some d → d.zone = none →
      assoc (updateZone zid level subs devices).1 id = some d := by
  intro devices
  induction devices with
  | nil => intro id d hd; simp at hd
  | cons p rest ih =>
    intro id d hd hz
    obtain ⟨did, dp⟩ := p
    by_cases hk : did = id
    · subst hk
      simp only [assoc_cons, if_pos rfl] at hd
      injection hd with hd
      subst hd
      simp [updateZone, hz]
    · simp only [assoc_cons, if_neg hk] at hd
      have tailEq := ih id d hd hz
      simp only [updateZone]
      cases hzp : dp.zone with
      | none => simp only [assoc_cons, if_neg hk]; exact tailEq
      | some z =>
        by_cases hzz : z = zid
        · simp only [if_pos hzz, assoc_cons, if_neg hk]
          exact tailEq
        · simp only [if_neg hzz, assoc_cons, if_neg hk]
          exact tailEq

theorem handle_response_zoneStatus (devices : Dict Device)
    (subs : List String) (href : String) (level : Int) :
    handle_response devices subs (zoneStatusMessage href level) =
      some (updateZone (afterLastSlash href) level subs devices) := rfl

/-! The claims. -/

/-- Claim C4: handling a `ReadResponse` carrying a `ZoneStatus` with a zone
href and a level updates `current_state` to that level for every cached
device whose `zone` equals the trailing path segment of the href, and for
each such device with a registered subscriber the callback fires exactly
once. -/
theorem C4_zone_status_updates_and_notifies
    (devices : Dict Device) (subs : List String) (href : String)
    (level : Int) (id : String) (d : Device)
    (hnd : (devices.map Prod.fst).Nodup)
    (hd : assoc devices id = some d)
    (hz : d.zone = some (afterLastSlash href)) :
    ∃ res,
      handle_response devices subs (zoneStatusMessage href level) =
        some res ∧
      assoc res.1 id = some { d with current_state := level } ∧
      (id ∈ subs → res.2.count id = 1) :=
  ⟨updateZone (afterLastSlash href) level subs devices,
   handle_response_zoneStatus devices subs href level,
   updateZone_assoc_updated _ level subs devices id d hd hz,
   fun hsub =>
     updateZone_count_one _ level subs devices id d hnd hd hz hsub⟩

/-- Claim C4 witness: pushing level 42 for zone `3` onto a cache holding
the zone-3 device `5` with a subscriber for `5`. -/
theorem C4_zone_status_updates_and_notifies_witness :
    ([("5", freshDevice5)].map Prod.fst).Nodup ∧
    assoc [("5", freshDevice5)] "5" = some freshDevice5 ∧
    freshDevice5.zone = some (afterLastSlash "/zone/3") ∧
    ∃ res,
      handle_response [("5", freshDevice5)] ["5"]
          (zoneStatusMessage "/zone/3" 42) = some res ∧
      assoc res.1 "5" = some { freshDevice5 with current_state := 42 } ∧
      ("5" ∈ ["5"] → res.2.count "5" = 1) :=
  ⟨by decide, by decide, by decide,
   C4_zone_status_updates_and_notifies [("5", freshDevice5)] ["5"]
     "/zone/3" 42 "5" freshDevice5 (by decide) (by decide) (by decide)⟩

/-- Claim C6: a device cached with `zone = None` is never touched by
handling a push: whenever `_handle_response` completes on any message, the
cache entry of every null-zone device is exactly what it was before. -/
theorem C6_null_zone_never_updated
    (devices : Dict Device) (subs : List String) (resp : Json)
    (devices' : Dict Device) (events : List String) (id : String)
    (d : Device)
    (h : handle_response devices subs resp = some (devices', events))
    (hd : assoc devices id = some d) (hz : d.zone = none) :
    assoc devices' id = some d := by
  unfold handle_response at h
  cases hg : Json.getField resp "CommuniqueType" with
  | none => simp only [hg] at h; exact Option.noConfusion h
  | some ct =>
    simp only [hg] at h
    by_cases hct : Json.asStr ct = some "ReadResponse"
    · rw [if_pos hct] at h
      cases hzs : (Json.getField resp "Body").bind fun b =>
          Json.getField b "ZoneStatus" with
      | none => simp only [hzs] at h; exact Option.noConfusion h
      | some zs =>
        simp only [hzs] at h
        cases hhref : ((Json.getField zs "Zone").bind fun z =>
            Json.getField z "href").bind Json.asStr with
        | none => simp only [hhref] at h; exact Option.noConfusion h
        | some href =>
          simp only [hhref] at h
          cases hlvl : (Json.getField zs "Level").bind Json.asInt with
          | none => simp only [hlvl] at h; exact Option.noConfusion h
          | some level =>
            simp only [hlvl] at h
            injection h with h2
            have hfst : devices' = (updateZone (afterLastSlash href) level
                subs devices).1 := by
              rw [h2]
            rw [hfst]
            exact updateZone_assoc_none _ level subs devices id d hd hz
    · rw [if_neg hct] at h
      injection h with h2
      injection h2 with hA hB
      rw [← hA]
      exact hd

/-- Claim C6 witness: a null-zone device survives a zone-3 push
unchanged. -/
theorem C6_null_zone_never_updated_witness :
    handle_response [("7", noZoneDevice7)] [] (zoneStatusMessage "/zone/3" 42)
      = some ([("7", noZoneDevice7)], []) ∧
    assoc [("7", noZoneDevice7)] "7" = some noZoneDevice7 ∧
    noZoneDevice7.zone = none ∧
    assoc [("7", noZoneDevice7)] "7" = some noZoneDevice7 :=
  ⟨by decide, by decide, by decide,
   C6_null_zone_never_updated [("7", noZoneDevice7)] []
     (zoneStatusMessage "/zone/3" 42) [("7", noZoneDevice7)] [] "7"
     noZoneDevice7 (by decide) (by decide) (by decide)⟩

/-- Claim C1, counterexample: `_load_devices` never clears `self.devices`,
so after a bulk load whose response lists only device `5`, the previously
cached device `9` — absent from the response — is still in the cache.  This
refutes "any device or scene present before the login but absent from the
hub's response is no longer in the cache". -/
theorem C1_counterexample :
    load_devices [("9", oldDevice9)] [deviceEntry5] =
      some [("9", oldDevice9), ("5", freshDevice5)] ∧
    assoc [("9", oldDevice9), ("5", freshDevice5)] "9" = some oldDevice9 ∧
    ([deviceEntry5].map fun e => afterLastSlash e.href) = ["5"] ∧
    "9" ∉ (["5"] : List String) := by
  refine ⟨by decide, by decide, by decide, by decide⟩

/-- Claim C1 (amended): a successful bulk load inserts every response entry
into the device cache with freshly parsed attributes and sentinel state
`-1`, but the caches are merged into rather than replaced: a device (or
scene) present before the login whose id does not occur in the response
remains in the cache unchanged. -/
theorem C1_load_merges_caches
    (devices : Dict Device) (entries : List DeviceEntry)
    (result : Dict Device) (scenes : Dict Scene)
    (sentries : List SceneEntry)
    (h : load_devices devices entries = some result) :
    (∀ id d, assoc devices id = some d →
      (∀ e ∈ entries, afterLastSlash e.href ≠ id) →
      assoc result id = some d) ∧
    ((entries.map fun e => afterLastSlash e.href).Nodup →
      ∀ e ∈ entries, ∀ z, entryZone e = some z →
        assoc result (afterLastSlash e.href) =
          some { device_id := afterLastSlash e.href, name := e.name,
                 devtype := e.deviceType, zone := z, current_state := -1 }) ∧
    (∀ id s, assoc scenes id = some s →
      (∀ e ∈ sentries, e.isProgrammed = true → afterLastSlash e.href ≠ id) →
      assoc (load_scenes scenes sentries) id = some s) := by
  refine ⟨?_, ?_, ?_⟩
  · intro id d hd hne
    rw [load_devices_preserves entries devices result id h hne, hd]
  · intro hnd e he z hz
    exact load_devices_loads_entry entries devices result h hnd e he z hz
  · intro id s hs hne
    rw [load_scenes_preserves sentries scenes id hne, hs]

/-- Claim C1 witness: the amended theorem applied at the concrete merge
counterexample input. -/
theorem C1_load_merges_caches_witness :
    load_devices [("9", oldDevice9)] [deviceEntry5] =
      some [("9", oldDevice9), ("5", freshDevice5)] ∧
    assoc [("9", oldDevice9), ("5", freshDevice5)] "9" = some oldDevice9 :=
  ⟨by decide,
    (C1_load_merges_caches [("9", oldDevice9)] [deviceEntry5]
        [("9", oldDevice9), ("5", freshDevice5)] [] [] (by decide)).1
      "9" oldDevice9 (by decide) (by decide)⟩

/-- Claim C2: the spec (and the constructor's stored `self._port`) say the
login sequence connects to the configured port, but `_login` passes the
constant `LEAP_PORT` to `asyncio.open_connection`, so a bridge constructed
with port 9999 connects to 8081.  The code contradicts its own
constructor's parameter, so this is recorded as a code bug; this theorem
evaluates the model at the failing input. -/
theorem C2_login_connects_to_constant_port :
    ((login cfg9999 emptyState emptyHub).map fun r => r.2.head?) =
      some (some (Action.connect "bridge" LEAP_PORT)) ∧
    cfg9999.port = 9999 ∧ LEAP_PORT = 8081 ∧ LEAP_PORT ≠ cfg9999.port := by
  exact ⟨rfl, rfl, rfl, by decide⟩

/-- Claim C3, counterexample: `get_value` on a cached device with zone `3`
and reported level 42 does not read the cache; it sends a zone-status
`ReadRequest` over the connection (a network write) and returns Python
`None`, not the level. -/
theorem C3_counterexample :
    get_value [("5", dimmer5)] "5" =
      some ([readRequestJson "/zone/3/status"], (none : Option Int)) ∧
    [readRequestJson "/zone/3/status"] ≠ ([] : List Json) := by
  exact ⟨rfl, by simp⟩

/-- Claim C3 (amended): `get_value` is not a cache read.  It resolves the
device's zone; when the zone is non-null and non-empty it performs a
network write of `ReadRequest /zone/{zone}/status`, and in every path it
returns `None` (the value of `_send_command`), never the cached level. -/
theorem C3_get_value_sends_read_request
    (devices : Dict Device) (device_id : String) (d : Device)
    (h : assoc devices device_id = some d) :
    get_value devices device_id =
      some ((match d.zone with
             | some zid =>
               if zid = "" then []
               else [readRequestJson ("/zone/" ++ zid ++ "/status")]
             | none => []), (none : Option Int)) := by
  unfold get_value get_zone_id
  rw [h]
  have hmap : Option.map Device.zone (some d) = some d.zone := rfl
  rw [hmap]
  cases hz : d.zone with
  | none => rfl
  | some zid =>
    by_cases hz2 : zid = ""
    · simp [hz2]
    · simp [hz2]

/-- Claim C3 witness: the amended theorem applied to the zone-3 dimmer. -/
theorem C3_get_value_sends_read_request_witness :
    assoc [("5", dimmer5)] "5" = some dimmer5 ∧
    get_value [("5", dimmer5)] "5" =
      some ((match dimmer5.zone with
             | some zid =>
               if zid = "" then []
               else [readRequestJson ("/zone/" ++ zid ++ "/status")]
             | none => []), (none : Option Int)) :=
  ⟨rfl, C3_get_value_sends_read_request [("5", dimmer5)] "5" dimmer5 rfl⟩

/-- Claim C5: calling `_login` while the session holds a live connection
(no reader exception, not at EOF) performs no network I/O and leaves the
whole bridge state — device cache, scene cache, `logged_in` flag — exactly
as it was. -/
theorem C5_login_noop_when_alive
    (cfg : Config) (st : BridgeState) (hub : HubResponses) (c : ConnState)
    (h1 : st.conn = some c) (h2 : c.hasException = false)
    (h3 : c.atEof = false) :
    login cfg st hub = some (st, []) := by
  unfold login
  rw [h1]
  simp [h2, h3]

/-- Claim C5 witness: the fast-path theorem applied to a live session. -/
theorem C5_login_noop_when_alive_witness :
    aliveState.conn = some { hasException := false, atEof := false } ∧
    login cfg9999 aliveState emptyHub = some (aliveState, []) :=
  ⟨rfl, C5_login_noop_when_alive cfg9999 aliveState emptyHub
    { hasException := false, atEof := false } rfl rfl rfl⟩

/-- Claim C7: `turn_on` is literally `set_value(device_id, 100)` and
`turn_off` is literally `set_value(device_id, 0)`, so each produces exactly
the same request message (and return value) for every device id and cache
state. -/
theorem C7_turn_on_off_equal_set_value :
    ∀ (devices : Dict Device) (device_id : String),
      turn_on devices device_id = set_value devices device_id 100 ∧
      turn_off devices device_id = set_value devices device_id 0 :=
  fun _ _ => ⟨rfl, rfl⟩

/-- Claim C8: `activate_scene` on a scene id not in the scene cache is a
silent no-op: no request is written, no exception is raised (the function
is total), and no state is touched. -/
theorem C8_activate_scene_unknown_noop
    (scenes : Dict Scene) (scene_id : String)
    (h : assoc scenes scene_id = none) :
    activate_scene scenes scene_id = ([], (none : Option Int)) := by
  simp [activate_scene, h]

/-- Claim C8 witness: activating scene `23` against an empty cache. -/
theorem C8_activate_scene_unknown_noop_witness :
    assoc ([] : Dict Scene) "23" = none ∧
    activate_scene [] "23" = ([], (none : Option Int)) :=
  ⟨rfl, C8_activate_scene_unknown_noop [] "23" rfl⟩

/-- Claim C10: a device whose `current_state` still holds the load-time
sentinel `-1` reports `is_on = False`, since `is_on` tests
`current_state > 0`. -/
theorem C10_is_on_false_for_sentinel
    (devices : Dict Device) (device_id : String) (d : Device)
    (h1 : assoc devices device_id = some d)
    (h2 : d.current_state = -1) :
    is_on devices device_id = some false := by
  unfold is_on
  rw [h1]
  show some (decide (0 < d.current_state)) = some false
  rw [h2]
  rfl

/-- Claim C10 witness: the freshly loaded device `5` (state `-1`) is not
on. -/
theorem C10_is_on_false_for_sentinel_witness :
    assoc [("5", freshDevice5)] "5" = some freshDevice5 ∧
    freshDevice5.current_state = -1 ∧
    is_on [("5", freshDevice5)] "5" = some false :=
  ⟨rfl, rfl,
    C10_is_on_false_for_sentinel [("5", freshDevice5)] "5" freshDevice5
      rfl rfl⟩

/-! Codec roundtrip machinery for claim C9. -/

theorem string_mk_data (s : String) : (⟨s.data⟩ : String) = s := by
  cases s
  rfl

theorem skipWs_cons_not_ws {c : Char} (l : List Char)
    (h : isWsC c = false) : skipWs (c :: l) = c :: l := by
  simp [skipWs, h]

theorem parseValue_ws (f : Nat) (l : List Char) :
    parseValue f (' ' :: l) = parseValue f l := by
  cases f with
  | zero => rfl
  | succ f =>
    show parseValue (f + 1) (' ' :: l) = parseValue (f + 1) l
    simp only [parseValue]
    have : skipWs (' ' :: l) = skipWs l := by
      simp [skipWs, isWsC]
    rw [this]

theorem char_valid_range (c : Char) :
    c.toNat < 55296 ∨ (57343 < c.toNat ∧ c.toNat < 1114112) := c.valid

theorem isDigitC_bounds {c : Char} (h : isDigitC c = true) :
    48 ≤ c.toNat ∧ c.toNat ≤ 57 := by
  exact of_decide_eq_true h

theorem digitChar_facts :
    ∀ m, m < 10 →
      isDigitC (digitChar m) = true ∧ (digitChar m).toNat = 48 + m := by
  decide

theorem hexVal_hexDigitChar :
    ∀ m, m < 16 → hexVal (hexDigitChar m) = some m := by
  decide

theorem hex4_uEsc (n : Nat) (h : n < 65536) :
    hex4 (hexDigitChar (n / 4096 % 16)) (hexDigitChar (n / 256 % 16))
      (hexDigitChar (n / 16 % 16)) (hexDigitChar (n % 16)) = some n := by
  have e1 := hexVal_hexDigitChar (n / 4096 % 16) (Nat.mod_lt _ (by omega))
  have e2 := hexVal_hexDigitChar (n / 256 % 16) (Nat.mod_lt _ (by omega))
  have e3 := hexVal_hexDigitChar (n / 16 % 16) (Nat.mod_lt _ (by omega))
  have e4 := hexVal_hexDigitChar (n % 16) (Nat.mod_lt _ (by omega))
  simp only [hex4, e1, e2, e3, e4]
  congr 1
  omega

theorem digit_not_special {c : Char} (h : isDigitC c = true) :
    isWsC c = false ∧ c ≠ '{' ∧ c ≠ '[' ∧ c ≠ '"' ∧ c ≠ 'n' ∧ c ≠ 't' ∧
      c ≠ 'f' ∧ c ≠ '-' := by
  have hb := isDigitC_bounds h
  refine ⟨?_, ?_, ?_, ?_, ?_, ?_, ?_, ?_⟩
  · cases hw : isWsC c with
    | false => rfl
    | true =>
      rcases of_decide_eq_true hw with h1 | h1 | h1 | h1 <;>
        (subst h1; exact absurd hb (by decide))
  all_goals exact fun he => absurd hb (by subst he; decide)

theorem parseStringBody_strBody :
    ∀ (cs rest : List Char),
      parseStringBody (strBody cs ++ '"' :: rest) = some (cs, rest) := by
  intro cs
  induction cs with
  | nil => intro rest; simp [strBody, parseStringBody]
  | cons c cs ih =>
    intro rest
    show parseStringBody ((escapeChar c ++ strBody cs) ++ '"' :: rest) =
      some (c :: cs, rest)
    rw [List.append_assoc]
    unfold escapeChar
    by_cases h1 : c = '"'
    · subst h1
      rw [if_pos rfl]
      simp [parseStringBody, parseEscape, unescapeChar, ih]
    · rw [if_neg h1]
      by_cases h2 : c = '\\'
      · subst h2
        rw [if_pos rfl]
        simp [parseStringBody, parseEscape, unescapeChar, ih]
      · rw [if_neg h2]
        by_cases h3 : c = '\n'
        · subst h3
          rw [if_pos rfl]
          simp [parseStringBody, parseEscape, unescapeChar, ih]
        · rw [if_neg h3]
          by_cases h4 : c = '\r'
          · subst h4
            rw [if_pos rfl]
            simp [parseStringBody, parseEscape, unescapeChar, ih]
          · rw [if_neg h4]
            by_cases h5 : c = '\t'
            · subst h5
              rw [if_pos rfl]
              simp [parseStringBody, parseEscape, unescapeChar, ih]
            · rw [if_neg h5]
              by_cases h6 : c.toNat = 8
              · rw [if_pos h6]
                have hc : c = Char.ofNat 8 := by
                  rw [← Char.ofNat_toNat c, h6]
                subst hc
                simp [parseStringBody, parseEscape, unescapeChar, ih]
              · rw [if_neg h6]
                by_cases h7 : c.toNat = 12
                · rw [if_pos h7]
                  have hc : c = Char.ofNat 12 := by
                    rw [← Char.ofNat_toNat c, h7]
                  subst hc
                  simp [parseStringBody, parseEscape, unescapeChar, ih]
                · rw [if_neg h7]
                  by_cases h8 : c.toNat < 32
                  · rw [if_pos h8]
                    have hx := hex4_uEsc c.toNat (by omega)
                    have hns1 : ¬(55296 ≤ c.toNat ∧ c.toNat < 56320) := by omega
                    have hns2 : ¬(56320 ≤ c.toNat ∧ c.toNat < 57344) := by omega
                    simp [uEsc, parseStringBody, parseEscape, parseU, hx,
                      hns1, hns2, ih, Char.ofNat_toNat]
                  · rw [if_neg h8]
                    by_cases h9 : c.toNat < 127
                    · rw [if_pos h9]
                      simp [parseStringBody, h1, h2, h8, ih]
                    · rw [if_neg h9]
                      by_cases h10 : c.toNat < 65536
                      · rw [if_pos h10]
                        have hv := char_valid_range c
                        have hx := hex4_uEsc c.toNat (by omega)
                        have hns1 : ¬(55296 ≤ c.toNat ∧ c.toNat < 56320) := by
                          omega
                        have hns2 : ¬(56320 ≤ c.toNat ∧ c.toNat < 57344) := by
                          omega
                        simp [uEsc, parseStringBody, parseEscape, parseU, hx,
                          hns1, hns2, ih, Char.ofNat_toNat]
                      · rw [if_neg h10]
                        have hv := char_valid_range c
                        have hhi : 55296 + (c.toNat - 65536) / 1024 < 65536 := by
                          omega
                        have hlo : 56320 + (c.toNat - 65536) % 1024 < 65536 := by
                          omega
                        have hx1 := hex4_uEsc _ hhi
                        have hx2 := hex4_uEsc _ hlo
                        have hs1 : 55296 ≤ 55296 + (c.toNat - 65536) / 1024 ∧
                            55296 + (c.toNat - 65536) / 1024 < 56320 := by omega
                        have hs2 : 56320 ≤ 56320 + (c.toNat - 65536) % 1024 ∧
                            56320 + (c.toNat - 65536) % 1024 < 57344 := by omega
                        have hcomb : 65536 +
                            1024 * ((c.toNat - 65536) / 1024) +
                            (c.toNat - 65536) % 1024 = c.toNat := by omega
                        simp [uEsc, parseStringBody, parseEscape, parseU,
                          parseLowSurrogate, hx1, hx2, hs1, hs2, hcomb, ih,
                          Char.ofNat_toNat]

theorem natDigits_shape :
    ∀ n : Nat, (∀ c ∈ natDigits n, isDigitC c = true) ∧
      ∃ d t, natDigits n = d :: t := by
  intro n
  induction n using Nat.strong_induction_on with
  | _ n ih =>
    by_cases h : n < 10
    · rw [natDigits, if_pos h]
      exact ⟨by
        intro c hc
        rw [List.mem_singleton] at hc
        subst hc
        exact (digitChar_facts n h).1, _, _, rfl⟩
    · rw [natDigits, if_neg h]
      have hlt : n / 10 < n := Nat.div_lt_self (by omega) (by omega)
      obtain ⟨hall, d, t, hdt⟩ := ih (n / 10) hlt
      refine ⟨?_, ?_⟩
      · intro c hc
        rcases List.mem_append.mp hc with hc | hc
        · exact hall c hc
        · rw [List.mem_singleton] at hc
          subst hc
          exact (digitChar_facts (n % 10) (Nat.mod_lt _ (by omega))).1
      · rw [hdt]
        exact ⟨d, t ++ [digitChar (n % 10)], rfl⟩

theorem parseDigitsAux_stop (rest : List Char) (acc : Nat)
    (h : noDigitHead rest = true) : parseDigitsAux rest acc = (acc, rest) := by
  cases rest with
  | nil => rfl
  | cons c t =>
    have hc : isDigitC c = false := by
      simp [noDigitHead] at h
      exact h
    simp [parseDigitsAux, hc]

theorem parseDigitsAux_append :
    ∀ (n : Nat) (acc : Nat) (rest : List Char),
      parseDigitsAux (natDigits n ++ rest) acc =
        parseDigitsAux rest (acc * 10 ^ (natDigits n).length + n) := by
  intro n
  induction n using Nat.strong_induction_on with
  | _ n ih =>
    intro acc rest
    by_cases h : n < 10
    · rw [natDigits, if_pos h]
      have hd := digitChar_facts n h
      simp only [List.singleton_append, List.length_singleton, pow_one]
      simp [parseDigitsAux, hd.1, hd.2]
      congr 1
      omega
    · rw [natDigits, if_neg h]
      have hlt : n / 10 < n := Nat.div_lt_self (by omega) (by omega)
      rw [List.append_assoc]
      rw [ih (n / 10) hlt acc (([digitChar (n % 10)]) ++ rest)]
      have hd := digitChar_facts (n % 10) (Nat.mod_lt _ (by omega))
      simp only [List.singleton_append]
      simp [parseDigitsAux, hd.1, hd.2]
      congr 1
      rw [pow_succ, ← mul_assoc]
      generalize acc * 10 ^ (natDigits (n / 10)).length = M
      omega

theorem parseDigitsAux_natDigits (n : Nat) (rest : List Char)
    (h : noDigitHead rest = true) :
    parseDigitsAux (natDigits n ++ rest) 0 = (n, rest) := by
  rw [parseDigitsAux_append, parseDigitsAux_stop _ _ h]
  simp

theorem noDigitHead_cons (c : Char) (l : List Char)
    (h : isDigitC c = false) : noDigitHead (c :: l) = true := by
  simp [noDigitHead, h]

theorem parsesV_str (f : Nat) (s : String) : ParsesV (f + 1) (Json.str s) := by
  intro rest _
  have hshape : dumpsV (Json.str s) ++ rest =
      '"' :: (strBody s.data ++ '"' :: rest) := by
    simp [dumpsV]
  rw [hshape]
  simp [parseValue, skipWs, isWsC, parseStringBody_strBody, string_mk_data]

theorem parsesV_num (f : Nat) (v : Int) : ParsesV (f + 1) (Json.num v) := by
  intro rest hrest
  by_cases hv : v < 0
  · have hdump : dumpsV (Json.num v) = '-' :: natDigits (-v).toNat := by
      simp [dumpsV, dumpInt, hv]
    obtain ⟨hall, d, t, hdt⟩ := natDigits_shape (-v).toNat
    have hdd : isDigitC d = true :=
      hall d (by rw [hdt]; exact List.mem_cons_self _ _)
    have hin : dumpsV (Json.num v) ++ rest = '-' :: (d :: (t ++ rest)) := by
      rw [hdump, hdt]
      rfl
    have hpd : parseDigitsAux (d :: (t ++ rest)) 0 = ((-v).toNat, rest) := by
      have : d :: (t ++ rest) = natDigits (-v).toNat ++ rest := by
        rw [hdt]
        rfl
      rw [this]
      exact parseDigitsAux_natDigits _ _ hrest
    rw [hin]
    simp [parseValue, skipWs, isWsC, hdd, hpd]
    rw [sup_eq_left.mpr (show (0 : Int) ≤ -v by omega)]
    omega
  · have hdump : dumpsV (Json.num v) = natDigits v.toNat := by
      simp [dumpsV, dumpInt, hv]
    obtain ⟨hall, d, t, hdt⟩ := natDigits_shape v.toNat
    have hdd : isDigitC d = true :=
      hall d (by rw [hdt]; exact List.mem_cons_self _ _)
    obtain ⟨hw, hne1, hne2, hne3, hne4, hne5, hne6, hne7⟩ :=
      digit_not_special hdd
    have hin : dumpsV (Json.num v) ++ rest = d :: (t ++ rest) := by
      rw [hdump, hdt]
      rfl
    have hpd : parseDigitsAux (d :: (t ++ rest)) 0 = (v.toNat, rest) := by
      have : d :: (t ++ rest) = natDigits v.toNat ++ rest := by
        rw [hdt]
        rfl
      rw [this]
      exact parseDigitsAux_natDigits _ _ hrest
    have htn : ((v.toNat : Nat) : Int) = v := Int.toNat_of_nonneg (by omega)
    rw [hin]
    simp [parseValue, skipWs, hw, hne1, hne2, hne3, hne4, hne5, hne6, hne7,
      hdd, hpd, htn]

theorem dumpsMembers_head (k : String) (v : Json)
    (ms : List (String × Json)) :
    ∃ t, dumpsMembers ((k, v) :: ms) = '"' :: t := by
  cases ms with
  | nil => exact ⟨_, rfl⟩
  | cons m ms => exact ⟨_, rfl⟩

theorem pm_single (f : Nat) (k : String) (v : Json) (hv : ParsesV f v) :
    ParsesM (f + 1) [(k, v)] := by
  intro rest
  have hshape : dumpsMembers [(k, v)] ++ '}' :: rest =
      '"' :: (strBody k.data ++ '"' ::
        (':' :: (' ' :: (dumpsV v ++ '}' :: rest)))) := by
    simp [dumpsMembers]
  rw [hshape]
  have hv' := hv ('}' :: rest) (noDigitHead_cons _ _ (by decide))
  simp [parseMembers, parseStringBody_strBody, skipWs, isWsC,
    parseValue_ws, hv', string_mk_data]

theorem pm_cons (f : Nat) (k : String) (v : Json) (m : String × Json)
    (ms : List (String × Json)) (hv : ParsesV f v)
    (hms : ParsesM f (m :: ms)) :
    ParsesM (f + 1) ((k, v) :: m :: ms) := by
  intro rest
  obtain ⟨t0, ht0⟩ := dumpsMembers_head m.1 m.2 ms
  have hshape : dumpsMembers ((k, v) :: m :: ms) ++ '}' :: rest =
      '"' :: (strBody k.data ++ '"' :: (':' :: (' ' ::
        (dumpsV v ++ ',' :: (' ' ::
          (dumpsMembers (m :: ms) ++ '}' :: rest)))))) := by
    cases m with
    | mk mk mv => simp [dumpsMembers]
  rw [hshape]
  have hv' := hv (',' :: (' ' :: (dumpsMembers (m :: ms) ++ '}' :: rest)))
    (noDigitHead_cons _ _ (by decide))
  have hms' := hms rest
  have hskip : skipWs (dumpsMembers (m :: ms) ++ '}' :: rest) =
      dumpsMembers (m :: ms) ++ '}' :: rest := by
    cases m with
    | mk mk mv =>
      obtain ⟨t1, ht1⟩ := dumpsMembers_head mk mv ms
      rw [ht1]
      exact skipWs_cons_not_ws _ (by decide)
  simp [parseMembers, parseStringBody_strBody, skipWs, isWsC,
    parseValue_ws, hv', hskip, hms', string_mk_data]

theorem pv_obj (f : Nat) (k : String) (v : Json)
    (ms : List (String × Json)) (h : ParsesM f ((k, v) :: ms)) :
    ParsesV (f + 1) (Json.obj ((k, v) :: ms)) := by
  intro rest _
  obtain ⟨t0, ht0⟩ := dumpsMembers_head k v ms
  have hshape : dumpsV (Json.obj ((k, v) :: ms)) ++ rest =
      '{' :: (dumpsMembers ((k, v) :: ms) ++ '}' :: rest) := by
    simp [dumpsV]
  rw [hshape]
  have hm := h rest
  rw [ht0] at hm ⊢
  simp only [List.cons_append] at hm ⊢
  simp [parseValue, skipWs, isWsC, hm]

theorem pv_arr (f : Nat) (v : Json) (hv : ParsesV f v)
    (hobj : ∃ t, dumpsV v = '{' :: t) : ParsesV (f + 2) (Json.arr [v]) := by
  intro rest _
  obtain ⟨t0, ht0⟩ := hobj
  have hshape : dumpsV (Json.arr [v]) ++ rest =
      '[' :: (dumpsV v ++ ']' :: rest) := by
    simp [dumpsV, dumpsElems]
  rw [hshape]
  have hv' := hv (']' :: rest) (noDigitHead_cons _ _ (by decide))
  rw [ht0] at hv' ⊢
  simp only [List.cons_append] at hv' ⊢
  show parseValue (f + 1 + 1) _ = _
  simp [parseValue, parseElems, skipWs, isWsC, hv']

theorem dumpsV_obj_head (fs : List (String × Json)) :
    ∃ t, dumpsV (Json.obj fs) = '{' :: t :=
  ⟨dumpsMembers fs ++ ['}'], by simp [dumpsV]⟩

theorem parsesV_request (f : Nat) (r : Request) :
    ParsesV (f + 15) (Request.toJson r) := by
  obtain ⟨ct, url, body⟩ := r
  cases body with
  | none =>
    show ParsesV (f + 15)
      (Json.obj [("CommuniqueType", Json.str ct),
                 ("Header", Json.obj [("Url", Json.str url)])])
    exact pv_obj (f + 14) _ _ _
      (pm_cons (f + 13) _ _ _ _ (parsesV_str (f + 12) ct)
        (pm_single (f + 12) _ _
          (pv_obj (f + 11) _ _ _
            (pm_single (f + 10) _ _ (parsesV_str (f + 9) url)))))
  | some cb =>
    cases cb with
    | goToLevel v =>
      show ParsesV (f + 15)
        (Json.obj [("CommuniqueType", Json.str ct),
                   ("Header", Json.obj [("Url", Json.str url)]),
                   ("Body", Json.obj
                     [("Command", Json.obj
                       [("CommandType", Json.str "GoToLevel"),
                        ("Parameter", Json.arr
                          [Json.obj [("Type", Json.str "Level"),
                                     ("Value", Json.num v)]])])])])
      have helem : ParsesV (f + 4)
          (Json.obj [("Type", Json.str "Level"), ("Value", Json.num v)]) :=
        pv_obj (f + 3) _ _ _
          (pm_cons (f + 2) _ _ _ _ (parsesV_str (f + 1) "Level")
            (pm_single (f + 1) _ _ (parsesV_num f v)))
      have harr : ParsesV (f + 6)
          (Json.arr [Json.obj [("Type", Json.str "Level"),
                               ("Value", Json.num v)]]) :=
        pv_arr (f + 4) _ helem (dumpsV_obj_head _)
      have hcmd : ParsesV (f + 9)
          (Json.obj [("CommandType", Json.str "GoToLevel"),
                     ("Parameter", Json.arr
                       [Json.obj [("Type", Json.str "Level"),
                                  ("Value", Json.num v)]])]) :=
        pv_obj (f + 8) _ _ _
          (pm_cons (f + 7) _ _ _ _ (parsesV_str (f + 6) "GoToLevel")
            (pm_single (f + 6) _ _ harr))
      have hbody : ParsesV (f + 11)
          (Json.obj [("Command", Json.obj
            [("CommandType", Json.str "GoToLevel"),
             ("Parameter", Json.arr
               [Json.obj [("Type", Json.str "Level"),
                          ("Value", Json.num v)]])])]) :=
        pv_obj (f + 10) _ _ _ (pm_single (f + 9) _ _ hcmd)
      have hhdr : ParsesV (f + 12)
          (Json.obj [("Url", Json.str url)]) :=
        pv_obj (f + 11) _ _ _
          (pm_single (f + 10) _ _ (parsesV_str (f + 9) url))
      exact pv_obj (f + 14) _ _ _
        (pm_cons (f + 13) _ _ _ _ (parsesV_str (f + 12) ct)
          (pm_cons (f + 12) _ _ _ _ hhdr (pm_single (f + 11) _ _ hbody)))
    | pressAndRelease =>
      show ParsesV (f + 15)
        (Json.obj [("CommuniqueType", Json.str ct),
                   ("Header", Json.obj [("Url", Json.str url)]),
                   ("Body", Json.obj
                     [("Command", Json.obj
                       [("CommandType", Json.str "PressAndRelease")])])])
      have hcmd : ParsesV (f + 9)
          (Json.obj [("CommandType", Json.str "PressAndRelease")]) :=
        pv_obj (f + 8) _ _ _
          (pm_single (f + 7) _ _ (parsesV_str (f + 6) "PressAndRelease"))
      have hbody : ParsesV (f + 11)
          (Json.obj [("Command", Json.obj
            [("CommandType", Json.str "PressAndRelease")])]) :=
        pv_obj (f + 10) _ _ _ (pm_single (f + 9) _ _ hcmd)
      have hhdr : ParsesV (f + 12)
          (Json.obj [("Url", Json.str url)]) :=
        pv_obj (f + 11) _ _ _
          (pm_single (f + 10) _ _ (parsesV_str (f + 9) url))
      exact pv_obj (f + 14) _ _ _
        (pm_cons (f + 13) _ _ _ _ (parsesV_str (f + 12) ct)
          (pm_cons (f + 12) _ _ _ _ hhdr (pm_single (f + 11) _ _ hbody)))

theorem ofJson_toJson (r : Request) :
    Request.ofJson (Request.toJson r) = some r := by
  obtain ⟨ct, url, body⟩ := r
  cases body with
  | none => rfl
  | some cb =>
    cases cb with
    | goToLevel v => rfl
    | pressAndRelease => rfl

/-- Claim C9: encoding any structured request message (`CommuniqueType`,
`Header.Url`, optional `Body`) to its wire form — its `json.dumps` text
followed by CRLF — and then decoding that line with the JSON reader
reproduces exactly the same structured content.  Holds for arbitrary
strings (escaping included) and arbitrary integer levels. -/
theorem C9_encode_decode_roundtrip (r : Request) :
    (decodeLine (encodeRequest r)).bind Request.ofJson = some r := by
  have hp := parsesV_request
    (dumpsV (Request.toJson r) ++ ['\r', '\n']).length r
    ['\r', '\n'] (by decide)
  unfold decodeLine encodeRequest
  rw [hp]
  simp [skipWs, isWsC, ofJson_toJson]

end PylutronCaseta
